import Mathlib

/-!
Shallow embedding of the tracker-app scheduling/buffering core
(`src/main/buffer.ts`, `src/main/screenshotScheduler.ts`,
`src/main/screenshotter.ts`, `src/main/activityTracker.ts`,
`src/main/main.ts`) together with theorems about the spec's claims.

Machine integers (JS numbers holding millisecond clock values and counts)
are modelled as `Nat`; wherever the source computes `now - earlier` the
values involved are clock readings with `earlier ≤ now` on the branches
taken, so truncated subtraction agrees with JS subtraction there.
Effectful collaborators (the OS clock, sleep/permission state, the pixel
capture itself) are passed in as explicit inputs, one per call.
-/

namespace Tracker

/-- The event envelope from `src/types/events.ts` (`BaseEvent`).
The buffer never inspects its fields; the `data` payload is kept abstract
as a string tag. -/
structure BaseEvent where
  username : String
  deviceId : String
  domain : String
  timestamp : String
  type : String
  durationMs : Option Nat := none
  reason : Option String := none
  data : String := ""
deriving DecidableEq, Repr

/-! ## EventBuffer (`src/main/buffer.ts`)

`events` is the private array; `batchSize` and `maxSize` the constructor
parameters (`maxSize` defaults to 1000 at the only construction site,
`new EventBuffer(config.batchSize)` in `main.ts`). -/

structure EventBuffer where
  batchSize : Nat
  maxSize : Nat
  events : List BaseEvent
deriving Repr

namespace EventBuffer

/-- `add(event)`: `if (this.events.length >= this.maxSize) this.events.shift();
this.events.push(event); return this.events.length >= this.batchSize;`
(JS `shift()` on an empty array is a no-op, matching `List.tail`). -/
def add (b : EventBuffer) (event : BaseEvent) : EventBuffer × Bool :=
  let kept := if b.events.length ≥ b.maxSize then b.events.tail else b.events
  let events := kept ++ [event]
  ({ b with events := events }, events.length ≥ b.batchSize)

/-- `drain()`: returns the stored array and resets the buffer to empty. -/
def drain (b : EventBuffer) : List BaseEvent × EventBuffer :=
  (b.events, { b with events := [] })

/-- `size()`: current count. -/
def size (b : EventBuffer) : Nat :=
  b.events.length

/-- Test harness: run a sequence of `add` calls, keeping the final buffer. -/
def addAll (b : EventBuffer) : List BaseEvent → EventBuffer
  | [] => b
  | e :: rest => addAll (b.add e).1 rest

/-- Test harness: run a sequence of `add` calls, collecting the returned
flush signals in order. -/
def addResults (b : EventBuffer) : List BaseEvent → List Bool
  | [] => []
  | e :: rest => (b.add e).2 :: addResults (b.add e).1 rest

end EventBuffer

/-- The dispatcher's `flushNow` from `src/main/main.ts`: drain the buffer;
if nothing was drained, stop; otherwise send the batch; on network failure
re-add every drained event through the normal `add` path. `uploadOk` stands
for the outcome of `apiClient.sendActivityBatch`. -/
def flushNow (uploadOk : Bool) (b : EventBuffer) : EventBuffer :=
  let drained := b.drain
  if drained.1.length = 0 then drained.2
  else if uploadOk then drained.2
  else EventBuffer.addAll drained.2 drained.1

/-- A concrete event used to instantiate buffer theorems. -/
def sampleEvent (i : Nat) : BaseEvent :=
  { username := "u", deviceId := "d", domain := "windows-desktop",
    timestamp := toString i, type := "window_activity" }

/-- A concrete list of distinct events. -/
def sampleEvents (n : Nat) : List BaseEvent :=
  (List.range n).map sampleEvent

/-! ## Screenshotter (`src/main/screenshotter.ts`)

`capture(reason, screenIndex)` returns `true` when a screenshot was
actually taken and sent, `false` when the attempt was skipped (system
asleep, its own rate limit, permission denied, black frame, …), and can
also throw (filesystem or handler errors).  The environment-dependent
outcome of the part past the rate-limit check is a per-call input
(`CaptureOutcome`); a skipped or thrown attempt leaves `lastAt` alone,
only the success path commits `lastAt := now`. -/

def ONE_HOUR_MS : Nat := 60 * 60 * 1000

def DEFAULT_WINDOW_CHANGE_INTERVAL_MS : Nat := 5000

structure ShotOpts where
  minIntervalMs : Nat
  minWindowChangeIntervalMs : Option Nat := none
deriving Repr, DecidableEq

structure ShotState where
  lastAt : Nat
deriving Repr, DecidableEq

/-- How the environment-dependent part of one capture attempt ends:
a realized screenshot, a skip (`return false`), or a raised error. -/
inductive CaptureOutcome where
  | success
  | skipped
  | thrown
deriving Repr, DecidableEq

namespace Screenshotter

/-- `Screenshotter.capture`: `some b` models a normal return of `b`,
`none` a raised error. -/
def capture (o : ShotOpts) (reason : String) (now : Nat) (asleep : Bool)
    (outcome : CaptureOutcome) (s : ShotState) : Option Bool × ShotState :=
  if asleep then (some false, s)
  else
    let minInterval :=
      if reason == "window_change" then
        o.minWindowChangeIntervalMs.getD DEFAULT_WINDOW_CHANGE_INTERVAL_MS
      else o.minIntervalMs
    if now - s.lastAt < minInterval then (some false, s)
    else
      match outcome with
      | CaptureOutcome.success => (some true, { s with lastAt := now })
      | CaptureOutcome.skipped => (some false, s)
      | CaptureOutcome.thrown => (none, s)

end Screenshotter

/-! ## ScreenshotScheduler (`src/main/screenshotScheduler.ts`) -/

structure SchedulerOpts where
  minIntervalMs : Nat
  timeBasedIntervalMs : Nat
  windowChangeDebounceMs : Nat
  maxScreenshotsPerHour : Nat
deriving Repr, DecidableEq

/-- The scheduler's mutable fields: quota state (`lastCaptureAt`,
`hourlyTimestamps`), the idle flag and the two timers (each modelled by
its pending deadline). -/
structure SchedState where
  lastCaptureAt : Nat
  hourlyTimestamps : List Nat
  isIdle : Bool
  windowChangeTimer : Option Nat
  timeBasedTimer : Option Nat
deriving Repr, DecidableEq

/-- Scheduler plus the screenshotter it owns. -/
structure TrackState where
  sched : SchedState
  shot : ShotState
deriving Repr, DecidableEq

/-- What one `requestCapture` call did: whether `screenshotter.capture`
was invoked at all, whether quota state was recorded, and whether the
capture reported a realized screenshot. -/
structure RequestResult where
  attempted : Bool
  recorded : Bool
  realized : Bool
deriving Repr, DecidableEq

/-- One `requestCapture` call together with its clock reading and the
environment the capture attempt would meet. -/
structure CaptureCall where
  now : Nat
  reason : String
  asleep : Bool
  outcome : CaptureOutcome
deriving Repr, DecidableEq

namespace ScreenshotScheduler

/-- `trimHourly`: keep only timestamps with `now - timestamp <= ONE_HOUR_MS`. -/
def trimHourly (now : Nat) (hourly : List Nat) : List Nat :=
  hourly.filter (fun timestamp => now - timestamp ≤ ONE_HOUR_MS)

/-- `canCapture()`: rate-limit check against `lastCaptureAt`, then trim
`hourlyTimestamps` (an assignment, kept also on rejection) and check the
hourly cap.  Returns the decision and the scheduler state it leaves. -/
def canCapture (o : SchedulerOpts) (now : Nat) (s : SchedState) :
    Bool × SchedState :=
  if now - s.lastCaptureAt < o.minIntervalMs then (false, s)
  else
    let trimmed := trimHourly now s.hourlyTimestamps
    if trimmed.length ≥ o.maxScreenshotsPerHour then
      (false, { s with hourlyTimestamps := trimmed })
    else (true, { s with hourlyTimestamps := trimmed })

/-- The reasons allowed through while idle:
`reason !== "manual" && reason !== "tracking_start" && reason !== "resume"`. -/
def alwaysAllowedWhenIdle (reason : String) : Bool :=
  reason == "manual" || reason == "tracking_start" || reason == "resume"

/-- `requestCapture` after the idle gate: `canCapture`, then the capture
attempt; if the attempt returns (normally), record `now` into
`lastCaptureAt` and push it onto `hourlyTimestamps`; if it throws, only
log. -/
def requestCaptureBody (so : SchedulerOpts) (sh : ShotOpts) (c : CaptureCall)
    (st : TrackState) : TrackState × RequestResult :=
  let cc := canCapture so c.now st.sched
  if cc.1 then
    let cap := Screenshotter.capture sh c.reason c.now c.asleep c.outcome st.shot
    match cap.1 with
    | none => ({ sched := cc.2, shot := cap.2 }, ⟨true, false, false⟩)
    | some realized =>
        ({ sched := { cc.2 with
              lastCaptureAt := c.now
              hourlyTimestamps := cc.2.hourlyTimestamps ++ [c.now] },
           shot := cap.2 }, ⟨true, true, realized⟩)
  else ({ st with sched := cc.2 }, ⟨false, false, false⟩)

/-- `requestCapture(reason)`: the idle gate, then `requestCaptureBody`. -/
def requestCapture (so : SchedulerOpts) (sh : ShotOpts) (c : CaptureCall)
    (st : TrackState) : TrackState × RequestResult :=
  if st.sched.isIdle && !alwaysAllowedWhenIdle c.reason then
    (st, ⟨false, false, false⟩)
  else requestCaptureBody so sh c st

/-- `stop()`: cancel both timers and reset the quota state. -/
def stop (s : SchedState) : SchedState :=
  { s with
    windowChangeTimer := none
    timeBasedTimer := none
    hourlyTimestamps := []
    lastCaptureAt := 0 }

/-- `handleWindowChange()`: while idle do nothing; otherwise cancel any
pending debounce timer and re-arm it for `windowChangeDebounceMs` from
now. -/
def handleWindowChange (o : SchedulerOpts) (now : Nat) (s : SchedState) :
    SchedState :=
  if s.isIdle then s
  else { s with windowChangeTimer := some (now + o.windowChangeDebounceMs) }

/-- Event-loop harness for a burst of window-change notifications at the
given (nondecreasing) times: before each notification any armed debounce
deadline that has already elapsed fires (clearing the timer and invoking
`requestCapture("window_change")` at the deadline instant), then the
notification runs `handleWindowChange`; after the burst a still-armed
timer fires at its deadline.  Returns the final state and the instants at
which `requestCapture("window_change")` was issued. -/
def runWindowChangeBurst (o : SchedulerOpts) :
    List Nat → SchedState → SchedState × List Nat
  | [], s =>
    match s.windowChangeTimer with
    | some d => ({ s with windowChangeTimer := none }, [d])
    | none => (s, [])
  | t :: rest, s =>
    let fire : SchedState × List Nat :=
      match s.windowChangeTimer with
      | some d =>
          if d ≤ t then ({ s with windowChangeTimer := none }, [d]) else (s, [])
      | none => (s, [])
    let next := runWindowChangeBurst o rest (handleWindowChange o t fire.1)
    (next.1, fire.2 ++ next.2)

/-- Gaps between consecutive notification times are nonnegative and
strictly below the debounce delay (`p` is the previous time). -/
def gapOk (debounceMs : Nat) : Nat → List Nat → Bool
  | _, [] => true
  | p, t :: rest => decide (p ≤ t) && decide (t < p + debounceMs) && gapOk debounceMs t rest

/-- The time of the last notification of a burst (`p` when the burst is
empty). -/
def lastTime (p : Nat) : List Nat → Nat
  | [] => p
  | t :: rest => lastTime t rest

/-- Harness for a sequence of `requestCapture` calls: threads the state
and collects the timestamps recorded into the quota (`recorded` pushes),
in order. -/
def runCalls (so : SchedulerOpts) (sh : ShotOpts) :
    List CaptureCall → TrackState → TrackState × List Nat
  | [], st => (st, [])
  | c :: rest, st =>
    let r := requestCapture so sh c st
    let next := runCalls so sh rest r.1
    (next.1, (if r.2.recorded then [c.now] else []) ++ next.2)

/-- Clock readings along a call sequence are nondecreasing, starting from
a lower bound. -/
def timesMono : Nat → List CaptureCall → Bool
  | _, [] => true
  | t, c :: rest => decide (t ≤ c.now) && timesMono c.now rest

/-- The state of a freshly constructed scheduler and screenshotter. -/
def initTrackState : TrackState :=
  ⟨⟨0, [], false, none, none⟩, ⟨0⟩⟩

/-- Membership of a capture instant `c` in the rolling window ending at
`t` (window span `ONE_HOUR_MS`, boundaries included, matching
`trimHourly`'s `now - timestamp <= ONE_HOUR_MS`). -/
def inWindow (t c : Nat) : Bool :=
  decide (c ≤ t) && decide (t - c ≤ ONE_HOUR_MS)

/-- The predicate `trimHourly` keeps: `u - c ≤ ONE_HOUR_MS`. -/
def recentB (u c : Nat) : Bool :=
  decide (u - c ≤ ONE_HOUR_MS)

/-- Induction invariant for the hourly-cap proof: all recorded instants
lie at or below the clock lower bound `tlow`; the recorded instants still
inside the window ending at `tlow` form a sublist of `hourlyTimestamps`;
and every rolling window already holds at most `cap` recorded instants. -/
def capInv (cap : Nat) (st : TrackState) (recs : List Nat) (tlow : Nat) : Prop :=
  (∀ c ∈ recs, c ≤ tlow) ∧
  (recs.filter (recentB tlow)).Sublist st.sched.hourlyTimestamps ∧
  (∀ t, recs.countP (inWindow t) ≤ cap)

end ScreenshotScheduler

/-! Concrete configuration and states used by counterexamples and
witnesses: `minIntervalMs = 100000`, a window-change interval of `5000`,
an hourly cap of `10`, and a first realized `manual` capture at clock
`1000000`. -/

def exOpts : SchedulerOpts := ⟨100000, 600000, 10000, 10⟩

def exShot : ShotOpts := ⟨100000, some 5000⟩

/-- State after `requestCapture("manual")` at `now = 1000000` succeeds
from the fresh state. -/
def exAfterManual : TrackState :=
  (ScreenshotScheduler.requestCapture exOpts exShot
    ⟨1000000, "manual", false, CaptureOutcome.success⟩
    ScreenshotScheduler.initTrackState).1

/-! ## ActivityTracker (`src/main/activityTracker.ts`) -/

structure WinBounds where
  x : Int
  y : Int
  width : Int
  height : Int
deriving Repr, DecidableEq

/-- `ActiveWindowInfo` restricted to the fields `equals` and record
emission read. -/
structure ActiveWindowInfo where
  application : String
  title : String
  path : Option String := none
  bounds : Option WinBounds := none
  pid : Option Int := none
deriving Repr, DecidableEq

/-- The fields of the emitted `window_activity` event that the claims
speak about. -/
structure ActivityRecord where
  application : String
  title : String
  durationMs : Nat
  isIdle : Bool
deriving Repr, DecidableEq

namespace ActivityTracker

/-- `private readonly maxSessionDuration = 5 * 60 * 1000`. -/
def maxSessionDuration : Nat := 5 * 60 * 1000

/-- JS `a.pid || -1` (`0` is falsy). -/
def pidOrNeg (p : Option Int) : Int :=
  match p with
  | some v => if v == 0 then -1 else v
  | none => -1

/-- JS `a.path || ""`. -/
def pathOrEmpty (p : Option String) : String :=
  p.getD ""

/-- JS `s || d` on strings (`""` is falsy). -/
def jsOrString (s d : String) : String :=
  if s == "" then d else s

/-- The bounds clause of `equals`. -/
def boundsEq (a b : Option WinBounds) : Bool :=
  match a, b with
  | some ba, some bb =>
      ba.x == bb.x && ba.y == bb.y && ba.width == bb.width && ba.height == bb.height
  | none, none => true
  | _, _ => false

/-- `ActivityTracker.equals`. -/
def equals (a b : ActiveWindowInfo) : Bool :=
  a.application == b.application && a.title == b.title &&
  pidOrNeg a.pid == pidOrNeg b.pid &&
  pathOrEmpty a.path == pathOrEmpty b.path &&
  boundsEq a.bounds b.bounds

/-- The tracker's mutable fields touched by `tick`. -/
structure TickState where
  lastWindow : Option ActiveWindowInfo
  lastTimestamp : Nat
  lastActivityAt : Nat
  idleActive : Bool
deriving Repr, DecidableEq

/-- One `tick()`: `active` is the probed snapshot (after timeouts),
`isIdle` the result of `isSystemIdle(now)`, and `emitOk` whether
`buildProcessContext` succeeded (on its error the record is dropped but
the state transition still happens). -/
def tick (minActivityDuration : Nat) (now : Nat) (active : ActiveWindowInfo)
    (isIdle : Bool) (emitOk : Bool) (s : TickState) :
    TickState × Option ActivityRecord :=
  match s.lastWindow with
  | none => (⟨some active, now, now, isIdle⟩, none)
  | some lw =>
    if s.idleActive && !isIdle then
      (⟨if !(equals active lw) then some active else some lw, now, now, false⟩,
       none)
    else
      let windowChanged := !(equals active lw)
      let duration := now - s.lastTimestamp
      let shouldRecord := windowChanged || (isIdle && !s.idleActive) ||
        (!isIdle && decide (duration ≥ maxSessionDuration))
      let emitted :=
        if shouldRecord && decide (duration ≥ minActivityDuration) && emitOk then
          some (ActivityRecord.mk (jsOrString lw.application "Unknown")
            (jsOrString lw.title "") duration isIdle)
        else none
      let s' :=
        if shouldRecord then
          if windowChanged then
            ⟨some active, now, if !isIdle then now else s.lastActivityAt, isIdle⟩
          else if isIdle then
            ⟨s.lastWindow, now, s.lastActivityAt, true⟩
          else if decide (duration ≥ maxSessionDuration) then
            ⟨s.lastWindow, now, s.lastActivityAt, s.idleActive⟩
          else s
        else s
      (s', emitted)

end ActivityTracker

/-! ## Theorems -/

namespace EventBuffer

theorem add_batchSize (b : EventBuffer) (e : BaseEvent) :
    (b.add e).1.batchSize = b.batchSize := rfl

theorem add_maxSize (b : EventBuffer) (e : BaseEvent) :
    (b.add e).1.maxSize = b.maxSize := rfl

theorem addAll_batchSize (b : EventBuffer) (l : List BaseEvent) :
    (b.addAll l).batchSize = b.batchSize := by
  induction l generalizing b with
  | nil => rfl
  | cons e rest ih => simpa [addAll] using ih (b.add e).1

theorem addAll_maxSize (b : EventBuffer) (l : List BaseEvent) :
    (b.addAll l).maxSize = b.maxSize := by
  induction l generalizing b with
  | nil => rfl
  | cons e rest ih => simpa [addAll] using ih (b.add e).1

/-- One `add` keeps the size within `maxSize`, provided `maxSize ≥ 1`. -/
theorem add_length_le (b : EventBuffer) (e : BaseEvent)
    (hmax : 1 ≤ b.maxSize) (h : b.events.length ≤ b.maxSize) :
    (b.add e).1.events.length ≤ b.maxSize := by
  unfold add
  by_cases hb : b.events.length ≥ b.maxSize
  · have hlen : b.events.length = b.maxSize := le_antisymm h hb
    have htail : b.events.tail.length = b.maxSize - 1 := by
      simp [List.length_tail, hlen]
    simp only [hb, if_true]
    simp [htail, Nat.sub_add_cancel hmax]
  · have hlt : b.events.length < b.maxSize := lt_of_not_ge hb
    simp only [hb, if_false]
    simpa using hlt

/-- Sizes along any `add` sequence stay within `maxSize` (for `maxSize ≥ 1`). -/
theorem addAll_length_le (b : EventBuffer) (l : List BaseEvent)
    (hmax : 1 ≤ b.maxSize) (h : b.events.length ≤ b.maxSize) :
    (b.addAll l).events.length ≤ b.maxSize := by
  induction l generalizing b with
  | nil => simpa [addAll] using h
  | cons e rest ih =>
      have h1 := add_length_le b e hmax h
      have := ih (b.add e).1 (by simpa [add_maxSize] using hmax)
        (by simpa [add_maxSize] using h1)
      simpa [addAll, add_maxSize] using this

/-- As long as the buffer never reaches `maxSize`, `add` is a plain append. -/
theorem addAll_events_of_no_overflow (l : List BaseEvent) (b : EventBuffer)
    (h : b.events.length + l.length ≤ b.maxSize) :
    (b.addAll l).events = b.events ++ l := by
  induction l generalizing b with
  | nil => simp [addAll]
  | cons e rest ih =>
      have hlt : b.events.length < b.maxSize := by
        have : b.events.length + 1 ≤ b.maxSize := by
          calc b.events.length + 1 ≤ b.events.length + (e :: rest).length := by
                simp [Nat.add_le_add_left]
            _ ≤ b.maxSize := h
        omega
      have hnot : ¬ b.events.length ≥ b.maxSize := not_le.mpr hlt
      have hstep : (b.add e).1.events = b.events ++ [e] := by
        simp [add, hnot]
      have hrec := ih (b.add e).1 (by
        simp only [hstep, add_maxSize, List.length_append, List.length_singleton]
        simp only [List.length_cons] at h
        omega)
      simp [addAll, hrec, hstep]

/-- Splitting an `add` sequence. -/
theorem addAll_append (b : EventBuffer) (l₁ l₂ : List BaseEvent) :
    b.addAll (l₁ ++ l₂) = (b.addAll l₁).addAll l₂ := by
  induction l₁ generalizing b with
  | nil => simp [addAll]
  | cons e rest ih => simp [addAll, ih]

/-- The flush signals returned while the buffer never overflows depend only
on the running size. -/
theorem addResults_of_no_overflow (l : List BaseEvent) (b : EventBuffer)
    (h : b.events.length + l.length ≤ b.maxSize) :
    b.addResults l =
      (List.range l.length).map
        (fun i => decide (b.batchSize ≤ b.events.length + i + 1)) := by
  induction l generalizing b with
  | nil => simp [addResults]
  | cons e rest ih =>
      have hlt : b.events.length < b.maxSize := by
        simp only [List.length_cons] at h; omega
      have hnot : ¬ b.events.length ≥ b.maxSize := not_le.mpr hlt
      have hstep : (b.add e).1.events = b.events ++ [e] := by
        simp [add, hnot]
      have hsig : (b.add e).2 = decide (b.batchSize ≤ b.events.length + 1) := by
        simp [add, hnot, ge_iff_le]
      have hrec := ih (b.add e).1 (by
        simp only [hstep, add_maxSize, List.length_append, List.length_singleton]
        simp only [List.length_cons] at h
        omega)
      have harith : ∀ i : Nat,
          (b.add e).1.events.length + i + 1 = b.events.length + (i + 1) + 1 := by
        intro i
        simp only [hstep, List.length_append, List.length_singleton]
        omega
      have hmap :
          List.map (fun i => decide (b.batchSize ≤ (b.add e).1.events.length + i + 1))
              (List.range rest.length) =
            List.map ((fun i => decide (b.batchSize ≤ b.events.length + i + 1)) ∘ Nat.succ)
              (List.range rest.length) := by
        refine List.map_congr_left ?_
        intro i _
        simp only [Function.comp_apply, Nat.succ_eq_add_one]
        rw [decide_eq_decide]
        have h2 := harith i
        omega
      simp only [addResults, hrec, add_batchSize, hsig, List.length_cons,
        List.range_succ_eq_map, List.map_cons, List.map_map, hmap]

end EventBuffer

/-- C2: for every sequence of `EventBuffer.add` calls starting from a fresh
buffer with `maxSize ≥ 1` (the repository constructs it with the default
`maxSize = 1000`), `size()` never exceeds `maxSize`; and adding
`maxSize + 1` events leaves exactly the last `maxSize` of them, in order
(the first one added is the one evicted). -/
theorem eventBuffer_bounded_and_fifo (batchSize maxSize : Nat)
    (hmax : 1 ≤ maxSize) (l : List BaseEvent) :
    (EventBuffer.addAll ⟨batchSize, maxSize, []⟩ l).size ≤ maxSize ∧
    (l.length = maxSize + 1 →
      (EventBuffer.addAll ⟨batchSize, maxSize, []⟩ l).events = l.tail) := by
  constructor
  · exact EventBuffer.addAll_length_le _ l hmax (by simp)
  · intro hlen
    rcases List.eq_nil_or_concat l with rfl | ⟨l', e, rfl⟩
    · simp at hlen
    · simp only [List.concat_eq_append] at hlen ⊢
      have hlen' : l'.length = maxSize := by
        simpa using hlen
      have hfirst : (EventBuffer.addAll ⟨batchSize, maxSize, []⟩ l').events = l' := by
        simpa using EventBuffer.addAll_events_of_no_overflow l'
          ⟨batchSize, maxSize, []⟩ (by simp [hlen'])
      have hmaxcfg : (EventBuffer.addAll ⟨batchSize, maxSize, []⟩ l').maxSize = maxSize := by
        simpa using EventBuffer.addAll_maxSize ⟨batchSize, maxSize, []⟩ l'
      have hne : l' ≠ [] := by
        intro h
        rw [h] at hlen'
        simp at hlen'
        omega
      have hge : (EventBuffer.addAll ⟨batchSize, maxSize, []⟩ l').events.length ≥
          (EventBuffer.addAll ⟨batchSize, maxSize, []⟩ l').maxSize := by
        rw [hfirst, hmaxcfg, hlen']
      rw [EventBuffer.addAll_append]
      simp only [EventBuffer.addAll, EventBuffer.add, ge_iff_le]
      rw [if_pos (by simpa [ge_iff_le] using hge)]
      rw [hfirst]
      rcases l' with _ | ⟨x, xs⟩
      · exact absurd rfl hne
      · simp

/-- Witness for C2 at `maxSize = 2` and three concrete events. -/
theorem eventBuffer_bounded_and_fifo_witness :
    (EventBuffer.addAll ⟨2, 2, []⟩ (sampleEvents 3)).size ≤ 2 ∧
    (EventBuffer.addAll ⟨2, 2, []⟩ (sampleEvents 3)).events = (sampleEvents 3).tail :=
  ⟨(eventBuffer_bounded_and_fifo 2 2 (by decide) (sampleEvents 3)).1,
   (eventBuffer_bounded_and_fifo 2 2 (by decide) (sampleEvents 3)).2 (by decide)⟩

/-- C9: `add` returns `true` exactly when the post-add size has reached
`batchSize`; with `batchSize = 20` and a fresh buffer, the first 19 calls
return `false` and the 20th returns `true`. -/
theorem eventBuffer_add_flush_signal :
    (∀ (b : EventBuffer) (e : BaseEvent),
      ((b.add e).2 = true ↔ b.batchSize ≤ (b.add e).1.size)) ∧
    (∀ l : List BaseEvent, l.length = 20 →
      EventBuffer.addResults ⟨20, 1000, []⟩ l =
        List.replicate 19 false ++ [true]) := by
  constructor
  · intro b e
    simp [EventBuffer.add, EventBuffer.size, ge_iff_le]
  · intro l hlen
    rw [EventBuffer.addResults_of_no_overflow l ⟨20, 1000, []⟩ (by simp [hlen])]
    rw [hlen]
    decide

/-- Witness for C9 on 20 concrete events. -/
theorem eventBuffer_add_flush_signal_witness :
    ((EventBuffer.add ⟨1, 1000, []⟩ (sampleEvent 0)).2 = true ↔
      1 ≤ (EventBuffer.add ⟨1, 1000, []⟩ (sampleEvent 0)).1.size) ∧
    EventBuffer.addResults ⟨20, 1000, []⟩ (sampleEvents 20) =
      List.replicate 19 false ++ [true] :=
  ⟨eventBuffer_add_flush_signal.1 ⟨1, 1000, []⟩ (sampleEvent 0),
   eventBuffer_add_flush_signal.2 (sampleEvents 20) (by decide)⟩

/-- C3: when a failing flush drains `n` events (`0 < n ≤ maxSize`) from a
buffer holding exactly those events, every drained event is re-added via
the normal `add` path, so the buffer again holds the same `n` events in
their drained order (neither `0` nor `2n`). -/
theorem flush_failure_requeues (b : EventBuffer) (n : Nat)
    (hn : b.events.length = n) (hpos : 0 < n) (hle : n ≤ b.maxSize) :
    (flushNow false b).events = b.events ∧ (flushNow false b).size = n := by
  have hne : ¬ b.events.length = 0 := by omega
  have hre : (flushNow false b).events = b.events := by
    unfold flushNow EventBuffer.drain
    simp only [hne, if_false, Bool.false_eq_true]
    simpa using EventBuffer.addAll_events_of_no_overflow b.events
      { b with events := [] } (by simpa [hn] using hle)
  exact ⟨hre, by simp [EventBuffer.size, hre, hn]⟩

/-- Witness for C3 with a batch of five concrete events. -/
theorem flush_failure_requeues_witness :
    (flushNow false ⟨20, 1000, sampleEvents 5⟩).events = sampleEvents 5 ∧
    (flushNow false ⟨20, 1000, sampleEvents 5⟩).size = 5 :=
  flush_failure_requeues ⟨20, 1000, sampleEvents 5⟩ 5 (by decide) (by decide)
    (by decide)

/-- C7: when the scheduler is idle, `requestCapture(reason)` returns with
no capture attempt and no state change unless `reason` is `manual`,
`tracking_start` or `resume`; when the scheduler is not idle the idle gate
rejects no reason (the call proceeds to the post-gate body for every
reason). -/
theorem requestCapture_idle_gate (so : SchedulerOpts) (sh : ShotOpts)
    (c : CaptureCall) (st : TrackState) :
    (st.sched.isIdle = true → c.reason ≠ "manual" → c.reason ≠ "tracking_start" →
      c.reason ≠ "resume" →
      ScreenshotScheduler.requestCapture so sh c st = (st, ⟨false, false, false⟩)) ∧
    (st.sched.isIdle = false →
      ScreenshotScheduler.requestCapture so sh c st =
        ScreenshotScheduler.requestCaptureBody so sh c st) := by
  constructor
  · intro hidle h1 h2 h3
    have hall : ScreenshotScheduler.alwaysAllowedWhenIdle c.reason = false := by
      simp [ScreenshotScheduler.alwaysAllowedWhenIdle, h1, h2, h3]
    simp [ScreenshotScheduler.requestCapture, hidle, hall]
  · intro hidle
    simp [ScreenshotScheduler.requestCapture, hidle]

/-- Witness for C7: an idle scheduler drops a `time_interval` request
unchanged, and a non-idle scheduler lets `time_interval` through the gate. -/
theorem requestCapture_idle_gate_witness :
    (ScreenshotScheduler.requestCapture exOpts exShot
        ⟨500, "time_interval", false, CaptureOutcome.success⟩
        ⟨⟨0, [], true, none, none⟩, ⟨0⟩⟩ =
      (⟨⟨0, [], true, none, none⟩, ⟨0⟩⟩, ⟨false, false, false⟩)) ∧
    (ScreenshotScheduler.requestCapture exOpts exShot
        ⟨500, "time_interval", false, CaptureOutcome.success⟩
        ScreenshotScheduler.initTrackState =
      ScreenshotScheduler.requestCaptureBody exOpts exShot
        ⟨500, "time_interval", false, CaptureOutcome.success⟩
        ScreenshotScheduler.initTrackState) :=
  ⟨(requestCapture_idle_gate exOpts exShot
      ⟨500, "time_interval", false, CaptureOutcome.success⟩
      ⟨⟨0, [], true, none, none⟩, ⟨0⟩⟩).1 rfl (by decide) (by decide) (by decide),
   (requestCapture_idle_gate exOpts exShot
      ⟨500, "time_interval", false, CaptureOutcome.success⟩
      ScreenshotScheduler.initTrackState).2 rfl⟩

/-- C10: `stop()` resets the quota state besides cancelling the timers:
afterwards `lastCaptureAt = 0` and `hourlyTimestamps = []`, the outcome of
the rate/hourly check no longer depends on the pre-stop state, and with
any post-stop clock reading `now ≥ minIntervalMs` and a positive hourly
cap the first capture check of the new run passes. -/
theorem stop_resets_quota (so : SchedulerOpts) (s s' : SchedState) (now : Nat) :
    (ScreenshotScheduler.stop s).lastCaptureAt = 0 ∧
    (ScreenshotScheduler.stop s).hourlyTimestamps = [] ∧
    (ScreenshotScheduler.stop s).windowChangeTimer = none ∧
    (ScreenshotScheduler.stop s).timeBasedTimer = none ∧
    (ScreenshotScheduler.canCapture so now (ScreenshotScheduler.stop s)).1 =
      (ScreenshotScheduler.canCapture so now (ScreenshotScheduler.stop s')).1 ∧
    (so.minIntervalMs ≤ now → 0 < so.maxScreenshotsPerHour →
      (ScreenshotScheduler.canCapture so now (ScreenshotScheduler.stop s)).1 = true) := by
  refine ⟨rfl, rfl, rfl, rfl, ?_, ?_⟩
  · simp only [ScreenshotScheduler.canCapture, ScreenshotScheduler.stop,
      ScreenshotScheduler.trimHourly]
    split_ifs <;> rfl
  · intro h1 h2
    have hrate : ¬ now < so.minIntervalMs := by omega
    have hcap : ¬ so.maxScreenshotsPerHour ≤ 0 := by omega
    simp [ScreenshotScheduler.canCapture, ScreenshotScheduler.stop,
      ScreenshotScheduler.trimHourly, hrate, hcap]

/-- Witness for C10 at a concrete pre-stop state with stale quota. -/
theorem stop_resets_quota_witness :
    (ScreenshotScheduler.stop ⟨900, [100, 500, 900], false, some 1200, some 1500⟩).lastCaptureAt = 0 ∧
    (ScreenshotScheduler.stop ⟨900, [100, 500, 900], false, some 1200, some 1500⟩).hourlyTimestamps = [] ∧
    (ScreenshotScheduler.stop ⟨900, [100, 500, 900], false, some 1200, some 1500⟩).windowChangeTimer = none ∧
    (ScreenshotScheduler.stop ⟨900, [100, 500, 900], false, some 1200, some 1500⟩).timeBasedTimer = none ∧
    (ScreenshotScheduler.canCapture exOpts 1000000
        (ScreenshotScheduler.stop ⟨900, [100, 500, 900], false, some 1200, some 1500⟩)).1 =
      (ScreenshotScheduler.canCapture exOpts 1000000
        (ScreenshotScheduler.stop ⟨0, [], true, none, none⟩)).1 ∧
    (ScreenshotScheduler.canCapture exOpts 1000000
        (ScreenshotScheduler.stop ⟨900, [100, 500, 900], false, some 1200, some 1500⟩)).1 = true := by
  have h := stop_resets_quota exOpts ⟨900, [100, 500, 900], false, some 1200, some 1500⟩
    ⟨0, [], true, none, none⟩ 1000000
  exact ⟨h.1, h.2.1, h.2.2.1, h.2.2.2.1, h.2.2.2.2.1,
    h.2.2.2.2.2 (by decide) (by decide)⟩

/-- C5 counterexample: after a realized `manual` capture at `1000000`, a
`window_change` request at `1010000` has spacing `10000`, at least the
window-change interval `5000`, so under the claim the scheduler's spacing
check would let it through; the code rejects it (no capture attempt,
state unchanged) because `canCapture` compares against `minIntervalMs =
100000` regardless of reason. -/
theorem rate_limit_claim_counterexample :
    5000 ≤ 1010000 - exAfterManual.sched.lastCaptureAt ∧
    (ScreenshotScheduler.requestCapture exOpts exShot
        ⟨1010000, "window_change", false, CaptureOutcome.success⟩
        exAfterManual).2.attempted = false ∧
    (ScreenshotScheduler.requestCapture exOpts exShot
        ⟨1010000, "window_change", false, CaptureOutcome.success⟩
        exAfterManual).1 = exAfterManual := by
  decide

/-- C5 amended: the scheduler's spacing check rejects whenever
`now - lastCaptureAt < minIntervalMs`, for every reason alike
(`window_change` included); the shorter window-change interval is applied
only inside `Screenshotter.capture`, against the screenshotter's own
`lastAt`. -/
theorem rate_limit_reason_independent (so : SchedulerOpts) (sh : ShotOpts)
    (c : CaptureCall) (st : TrackState) :
    (st.sched.isIdle = false →
      c.now - st.sched.lastCaptureAt < so.minIntervalMs →
      ScreenshotScheduler.requestCapture so sh c st = (st, ⟨false, false, false⟩)) ∧
    (∀ (reason : String) (now : Nat) (s : ShotState) (outcome : CaptureOutcome),
      now - s.lastAt <
        (if reason == "window_change" then
          sh.minWindowChangeIntervalMs.getD DEFAULT_WINDOW_CHANGE_INTERVAL_MS
         else sh.minIntervalMs) →
      Screenshotter.capture sh reason now false outcome s = (some false, s)) := by
  constructor
  · intro hidle hrate
    have hcc : ScreenshotScheduler.canCapture so c.now st.sched = (false, st.sched) := by
      simp [ScreenshotScheduler.canCapture, hrate]
    simp [ScreenshotScheduler.requestCapture, hidle,
      ScreenshotScheduler.requestCaptureBody, hcc]
  · intro reason now s outcome hlt
    simp [Screenshotter.capture]
    intro h
    exact absurd hlt (by simp [h])

/-- Witness for the amended C5: the counterexample call is rejected by the
reason-independent spacing check, and a `window_change` capture attempt
`4000` ms after the screenshotter's last shot is skipped by the
screenshotter's own (shorter) threshold. -/
theorem rate_limit_reason_independent_witness :
    ScreenshotScheduler.requestCapture exOpts exShot
        ⟨1010000, "window_change", false, CaptureOutcome.success⟩ exAfterManual =
      (exAfterManual, ⟨false, false, false⟩) ∧
    Screenshotter.capture exShot "window_change" 1004000 false
        CaptureOutcome.success ⟨1000000⟩ = (some false, ⟨1000000⟩) :=
  ⟨(rate_limit_reason_independent exOpts exShot
      ⟨1010000, "window_change", false, CaptureOutcome.success⟩ exAfterManual).1
      (by decide) (by decide),
   (rate_limit_reason_independent exOpts exShot
      ⟨1010000, "window_change", false, CaptureOutcome.success⟩ exAfterManual).2
      "window_change" 1004000 ⟨1000000⟩ CaptureOutcome.success (by decide)⟩

/-- C6: evaluating `requestCapture("manual")` at `now = 1000000` from the
fresh state while the system is asleep: `Screenshotter.capture` skips
(returns `false`, no screenshot realized), yet the scheduler records the
attempt into its quota state — `lastCaptureAt` becomes `1000000` and
`1000000` is appended to `hourlyTimestamps` — because `requestCapture`
ignores `capture`'s boolean result and updates quota on every
non-throwing attempt. -/
theorem failed_capture_consumes_quota :
    (ScreenshotScheduler.requestCapture exOpts exShot
        ⟨1000000, "manual", true, CaptureOutcome.success⟩
        ScreenshotScheduler.initTrackState).2.realized = false ∧
    (ScreenshotScheduler.requestCapture exOpts exShot
        ⟨1000000, "manual", true, CaptureOutcome.success⟩
        ScreenshotScheduler.initTrackState).2.recorded = true ∧
    (ScreenshotScheduler.requestCapture exOpts exShot
        ⟨1000000, "manual", true, CaptureOutcome.success⟩
        ScreenshotScheduler.initTrackState).1.sched.lastCaptureAt = 1000000 ∧
    (ScreenshotScheduler.requestCapture exOpts exShot
        ⟨1000000, "manual", true, CaptureOutcome.success⟩
        ScreenshotScheduler.initTrackState).1.sched.hourlyTimestamps = [1000000] := by
  decide

/-- While the debounce timer armed at `p` has not expired before any
notification of the (tight) burst, every notification just re-arms it, so
the only firing is at `debounceMs` past the last notification. -/
theorem runBurst_armed (o : SchedulerOpts) (rest : List Nat) (p : Nat)
    (s : SchedState) (hidle : s.isIdle = false)
    (htimer : s.windowChangeTimer = some (p + o.windowChangeDebounceMs))
    (hgap : ScreenshotScheduler.gapOk o.windowChangeDebounceMs p rest = true) :
    (ScreenshotScheduler.runWindowChangeBurst o rest s).2 =
      [ScreenshotScheduler.lastTime p rest + o.windowChangeDebounceMs] := by
  induction rest generalizing p s with
  | nil =>
      simp [ScreenshotScheduler.runWindowChangeBurst, htimer,
        ScreenshotScheduler.lastTime]
  | cons t rest ih =>
      simp only [ScreenshotScheduler.gapOk, Bool.and_eq_true, decide_eq_true_eq] at hgap
      obtain ⟨⟨hle, hlt⟩, hgap'⟩ := hgap
      have hnofire : ¬ p + o.windowChangeDebounceMs ≤ t := by omega
      have harm : ScreenshotScheduler.handleWindowChange o t s =
          { s with windowChangeTimer := some (t + o.windowChangeDebounceMs) } := by
        simp [ScreenshotScheduler.handleWindowChange, hidle]
      have hrec := ih t { s with windowChangeTimer := some (t + o.windowChangeDebounceMs) }
        (by simpa using hidle) rfl hgap'
      simp [ScreenshotScheduler.runWindowChangeBurst, htimer, hnofire, harm, hrec,
        ScreenshotScheduler.lastTime]

/-- C8: a burst of window-change notifications with consecutive gaps below
`windowChangeDebounceMs`, starting with no pending debounce timer and the
scheduler active, issues exactly one `requestCapture("window_change")`, at
`windowChangeDebounceMs` after the last notification of the burst. -/
theorem window_change_debounce (o : SchedulerOpts) (s : SchedState) (t : Nat)
    (rest : List Nat) (hidle : s.isIdle = false)
    (htimer : s.windowChangeTimer = none)
    (hgap : ScreenshotScheduler.gapOk o.windowChangeDebounceMs t rest = true) :
    (ScreenshotScheduler.runWindowChangeBurst o (t :: rest) s).2 =
      [ScreenshotScheduler.lastTime t rest + o.windowChangeDebounceMs] := by
  have harm : ScreenshotScheduler.handleWindowChange o t s =
      { s with windowChangeTimer := some (t + o.windowChangeDebounceMs) } := by
    simp [ScreenshotScheduler.handleWindowChange, hidle]
  have hrec := runBurst_armed o rest t
    { s with windowChangeTimer := some (t + o.windowChangeDebounceMs) }
    (by simpa using hidle) rfl hgap
  simp [ScreenshotScheduler.runWindowChangeBurst, htimer, harm, hrec]

/-- Witness for C8: two notifications `100` and `200` with a `5000` ms
debounce yield the single capture request at `5200`. -/
theorem window_change_debounce_witness :
    (ScreenshotScheduler.runWindowChangeBurst ⟨100000, 600000, 5000, 10⟩
        [100, 200] ⟨0, [], false, none, none⟩).2 = [5200] := by
  have h := window_change_debounce ⟨100000, 600000, 5000, 10⟩
    ⟨0, [], false, none, none⟩ 100 [200] rfl rfl (by decide)
  simpa using h

/-- A tick with no tracked window adopts the snapshot and emits nothing. -/
theorem tick_snd_none (minActivityDuration now : Nat)
    (active : ActiveWindowInfo) (isIdle emitOk : Bool)
    (s : ActivityTracker.TickState) (hlw : s.lastWindow = none) :
    (ActivityTracker.tick minActivityDuration now active isIdle emitOk s).2 = none := by
  unfold ActivityTracker.tick
  rw [hlw]

/-- A resume-after-idle tick resets the timers and emits nothing. -/
theorem tick_snd_resume (minActivityDuration now : Nat)
    (active : ActiveWindowInfo) (isIdle emitOk : Bool)
    (s : ActivityTracker.TickState) (lw : ActiveWindowInfo)
    (hlw : s.lastWindow = some lw) (hres : (s.idleActive && !isIdle) = true) :
    (ActivityTracker.tick minActivityDuration now active isIdle emitOk s).2 = none := by
  unfold ActivityTracker.tick
  rw [hlw]
  simp only [hres, if_true]

/-- Closed form of the record an ordinary tick emits. -/
theorem tick_snd_eq (minActivityDuration now : Nat)
    (active : ActiveWindowInfo) (isIdle emitOk : Bool)
    (s : ActivityTracker.TickState) (lw : ActiveWindowInfo)
    (hlw : s.lastWindow = some lw) (hres : (s.idleActive && !isIdle) = false) :
    (ActivityTracker.tick minActivityDuration now active isIdle emitOk s).2 =
      (if (!ActivityTracker.equals active lw || (isIdle && !s.idleActive) ||
            (!isIdle && decide (now - s.lastTimestamp ≥ ActivityTracker.maxSessionDuration))) &&
          decide (now - s.lastTimestamp ≥ minActivityDuration) && emitOk then
        some (ActivityRecord.mk (ActivityTracker.jsOrString lw.application "Unknown")
          (ActivityTracker.jsOrString lw.title "") (now - s.lastTimestamp) isIdle)
      else none) := by
  unfold ActivityTracker.tick
  rw [hlw]
  simp only [hres, Bool.false_eq_true, if_false]

/-- C4: every record `tick` emits has `durationMs ≥ minActivityDuration`,
and a tick whose computed duration `now - lastTimestamp` is below
`minActivityDuration` emits no record, whatever transition occurred. -/
theorem tick_duration_floor (minActivityDuration now : Nat)
    (active : ActiveWindowInfo) (isIdle emitOk : Bool)
    (s : ActivityTracker.TickState) :
    (∀ r, (ActivityTracker.tick minActivityDuration now active isIdle emitOk s).2 =
        some r → minActivityDuration ≤ r.durationMs) ∧
    (now - s.lastTimestamp < minActivityDuration →
      (ActivityTracker.tick minActivityDuration now active isIdle emitOk s).2 = none) := by
  cases hlw : s.lastWindow with
  | none =>
      rw [tick_snd_none minActivityDuration now active isIdle emitOk s hlw]
      exact ⟨fun r h => Option.noConfusion h, fun _ => rfl⟩
  | some lw =>
      by_cases hres : (s.idleActive && !isIdle) = true
      · rw [tick_snd_resume minActivityDuration now active isIdle emitOk s lw hlw hres]
        exact ⟨fun r h => Option.noConfusion h, fun _ => rfl⟩
      · rw [tick_snd_eq minActivityDuration now active isIdle emitOk s lw hlw
          (by simpa using hres)]
        constructor
        · intro r h
          split at h
          · next hc =>
              have h1 := (Bool.and_eq_true ..).mp hc
              have h2 := (Bool.and_eq_true ..).mp h1.1
              have hdur : minActivityDuration ≤ now - s.lastTimestamp := by
                simpa [ge_iff_le] using of_decide_eq_true h2.2
              cases h
              simpa using hdur
          · cases h
        · intro hlt
          have hd : decide (now - s.lastTimestamp ≥ minActivityDuration) = false := by
            rw [decide_eq_false_iff_not]
            omega
          simp [hd]

/-- Witness for C4, mirroring the spec's scenario: window A focused from
`0`, window B observed at `3000` with `minActivityDuration = 2000` emits
the `durationMs = 3000` record, while the same switch observed at `1000`
emits nothing. -/
theorem tick_duration_floor_witness :
    2000 ≤ (ActivityRecord.mk "A" "t" 3000 false).durationMs ∧
    (ActivityTracker.tick 2000 1000 ⟨"B", "u", none, none, none⟩ false true
      ⟨some ⟨"A", "t", none, none, none⟩, 0, 0, false⟩).2 = none :=
  ⟨(tick_duration_floor 2000 3000 ⟨"B", "u", none, none, none⟩ false true
      ⟨some ⟨"A", "t", none, none, none⟩, 0, 0, false⟩).1
      (ActivityRecord.mk "A" "t" 3000 false) (by decide),
   (tick_duration_floor 2000 1000 ⟨"B", "u", none, none, none⟩ false true
      ⟨some ⟨"A", "t", none, none, none⟩, 0, 0, false⟩).2 (by decide)⟩

namespace ScreenshotScheduler

/-- Filtering with a (membership-wise) stronger predicate gives a sublist
of filtering with the weaker one. -/
theorem filter_sublist_filter_of_imp (l : List Nat) (p q : Nat → Bool) :
    (∀ a ∈ l, p a = true → q a = true) → (l.filter p).Sublist (l.filter q) := by
  induction l with
  | nil => intro _; simp
  | cons a l ih =>
      intro h
      have ih' := ih (fun x hx hpx => h x (List.mem_cons_of_mem a hx) hpx)
      by_cases hp : p a = true
      · have hq := h a (List.mem_cons_self a l) hp
        simp only [List.filter_cons, hp, hq, if_true]
        exact ih'.cons₂ a
      · have hp' : p a = false := by simpa using hp
        by_cases hq : q a = true
        · simp only [List.filter_cons, hp', hq, if_true, Bool.false_eq_true, if_false]
          exact ih'.cons a
        · have hq' : q a = false := by simpa using hq
          simp only [List.filter_cons, hp', hq', Bool.false_eq_true, if_false]
          exact ih'

/-- Counting with a (membership-wise) stronger predicate counts no more. -/
theorem countP_le_of_imp (l : List Nat) (p q : Nat → Bool)
    (h : ∀ a ∈ l, p a = true → q a = true) : l.countP p ≤ l.countP q := by
  rw [List.countP_eq_length_filter, List.countP_eq_length_filter]
  exact (filter_sublist_filter_of_imp l p q h).length_le

theorem trimHourly_eq_filter (u : Nat) (l : List Nat) :
    trimHourly u l = l.filter (recentB u) := rfl

/-- Moving the window end forward can only shrink the recent filter. -/
theorem recs_filter_mono (recs : List Nat) (tlow v : Nat)
    (hA : ∀ c ∈ recs, c ≤ tlow) (hle : tlow ≤ v) :
    (recs.filter (recentB v)).Sublist (recs.filter (recentB tlow)) := by
  apply filter_sublist_filter_of_imp
  intro c hc hpv
  have h1 := hA c hc
  simp only [recentB, decide_eq_true_eq] at hpv ⊢
  omega

/-- The newer recent filter factors through the older one. -/
theorem recs_filter_eq (recs : List Nat) (tlow v : Nat) (hle : tlow ≤ v) :
    (∀ c ∈ recs, c ≤ tlow) →
    recs.filter (recentB v) = (recs.filter (recentB tlow)).filter (recentB v) := by
  induction recs with
  | nil => intro _; simp
  | cons a l ih =>
      intro hA
      have ih' := ih (fun x hx => hA x (List.mem_cons_of_mem a hx))
      by_cases hv : recentB v a = true
      · have ht : recentB tlow a = true := by
          have := hA a (List.mem_cons_self a l)
          simp only [recentB, decide_eq_true_eq] at hv ⊢
          omega
        simp [List.filter_cons, hv, ht, ih']
      · have hv' : recentB v a = false := by simpa using hv
        by_cases ht : recentB tlow a = true
        · simp [List.filter_cons, hv', ht, ih']
        · have ht' : recentB tlow a = false := by simpa using ht
          simp [List.filter_cons, hv', ht', ih']

/-- On success, `canCapture` leaves the trimmed state and the trimmed list
is strictly below the hourly cap. -/
theorem canCapture_eq_true (o : SchedulerOpts) (now : Nat) (s : SchedState)
    (h : (canCapture o now s).1 = true) :
    (canCapture o now s).2 =
      { s with hourlyTimestamps := trimHourly now s.hourlyTimestamps } ∧
    (trimHourly now s.hourlyTimestamps).length < o.maxScreenshotsPerHour := by
  simp only [canCapture] at h ⊢
  split_ifs at h ⊢ with h1 h2
  all_goals simp_all

/-- `canCapture` leaves either the untouched or the trimmed state. -/
theorem canCapture_snd (o : SchedulerOpts) (now : Nat) (s : SchedState) :
    (canCapture o now s).2 = s ∨
    (canCapture o now s).2 =
      { s with hourlyTimestamps := trimHourly now s.hourlyTimestamps } := by
  simp only [canCapture]
  split_ifs <;> simp

theorem requestCapture_gate (so : SchedulerOpts) (sh : ShotOpts)
    (c : CaptureCall) (st : TrackState)
    (h : (st.sched.isIdle && !alwaysAllowedWhenIdle c.reason) = true) :
    requestCapture so sh c st = (st, ⟨false, false, false⟩) := by
  simp only [requestCapture, h, if_true]

theorem requestCapture_nogate (so : SchedulerOpts) (sh : ShotOpts)
    (c : CaptureCall) (st : TrackState)
    (h : (st.sched.isIdle && !alwaysAllowedWhenIdle c.reason) = false) :
    requestCapture so sh c st = requestCaptureBody so sh c st := by
  simp only [requestCapture, h, Bool.false_eq_true, if_false]

theorem requestCaptureBody_reject (so : SchedulerOpts) (sh : ShotOpts)
    (c : CaptureCall) (st : TrackState)
    (h : (canCapture so c.now st.sched).1 = false) :
    requestCaptureBody so sh c st =
      ({ st with sched := (canCapture so c.now st.sched).2 },
       ⟨false, false, false⟩) := by
  simp only [requestCaptureBody, h, Bool.false_eq_true, if_false]

theorem requestCaptureBody_thrown (so : SchedulerOpts) (sh : ShotOpts)
    (c : CaptureCall) (st : TrackState)
    (h : (canCapture so c.now st.sched).1 = true)
    (hc : (Screenshotter.capture sh c.reason c.now c.asleep c.outcome st.shot).1 = none) :
    requestCaptureBody so sh c st =
      (⟨(canCapture so c.now st.sched).2,
        (Screenshotter.capture sh c.reason c.now c.asleep c.outcome st.shot).2⟩,
       ⟨true, false, false⟩) := by
  simp only [requestCaptureBody, h, if_true, hc]

theorem requestCaptureBody_returned (so : SchedulerOpts) (sh : ShotOpts)
    (c : CaptureCall) (st : TrackState) (b : Bool)
    (h : (canCapture so c.now st.sched).1 = true)
    (hc : (Screenshotter.capture sh c.reason c.now c.asleep c.outcome st.shot).1 = some b) :
    requestCaptureBody so sh c st =
      ({ sched := { (canCapture so c.now st.sched).2 with
            lastCaptureAt := c.now
            hourlyTimestamps := (canCapture so c.now st.sched).2.hourlyTimestamps ++ [c.now] },
         shot := (Screenshotter.capture sh c.reason c.now c.asleep c.outcome st.shot).2 },
       ⟨true, true, b⟩) := by
  simp only [requestCaptureBody, h, if_true, hc]

/-- Appending a capture at `v` keeps every rolling window at or below the
cap, provided the recorded instants inside the window ending at `v` were
strictly below it. -/
theorem countP_window_push (recs : List Nat) (v cap : Nat)
    (hA : ∀ x ∈ recs, x ≤ v)
    (hlen : (recs.filter (recentB v)).length < cap)
    (hG : ∀ t, recs.countP (inWindow t) ≤ cap) :
    ∀ t, (recs ++ [v]).countP (inWindow t) ≤ cap := by
  intro t
  rw [List.countP_append]
  by_cases hv : inWindow t v = true
  · have hvt : v ≤ t ∧ t - v ≤ ONE_HOUR_MS := by
      simpa [inWindow] using hv
    have hmono : recs.countP (inWindow t) ≤ recs.countP (recentB v) := by
      apply countP_le_of_imp
      intro x hx hxw
      have hx1 := hA x hx
      simp only [inWindow, Bool.and_eq_true, decide_eq_true_eq] at hxw
      simp only [recentB, decide_eq_true_eq]
      omega
    have hcnt : recs.countP (recentB v) = (recs.filter (recentB v)).length := by
      rw [List.countP_eq_length_filter]
    have hone : List.countP (inWindow t) [v] = 1 := by
      simp [List.countP_cons, hv]
    omega
  · have hvf : inWindow t v = false := by simpa using hv
    have hone : List.countP (inWindow t) [v] = 0 := by
      simp [List.countP_cons, hvf]
    have := hG t
    omega

/-- One `requestCapture` call preserves the hourly-cap invariant. -/
theorem requestCapture_capInv (so : SchedulerOpts) (sh : ShotOpts)
    (c : CaptureCall) (st : TrackState) (recs : List Nat) (tlow : Nat)
    (hinv : capInv so.maxScreenshotsPerHour st recs tlow) (hle : tlow ≤ c.now) :
    capInv so.maxScreenshotsPerHour (requestCapture so sh c st).1
      (recs ++ if (requestCapture so sh c st).2.recorded = true then [c.now] else [])
      c.now := by
  obtain ⟨hA, hB, hG⟩ := hinv
  have hA' : ∀ x ∈ recs, x ≤ c.now := fun x hx => le_trans (hA x hx) hle
  have hBv : (recs.filter (recentB c.now)).Sublist st.sched.hourlyTimestamps :=
    (recs_filter_mono recs tlow c.now hA hle).trans hB
  have hBtrim : (recs.filter (recentB c.now)).Sublist
      (trimHourly c.now st.sched.hourlyTimestamps) := by
    rw [recs_filter_eq recs tlow c.now hle hA, trimHourly_eq_filter]
    exact hB.filter (recentB c.now)
  by_cases hgate : (st.sched.isIdle && !alwaysAllowedWhenIdle c.reason) = true
  · rw [requestCapture_gate so sh c st hgate]
    refine ⟨?_, ?_, ?_⟩
    · simpa using hA'
    · simpa using hBv
    · simpa using hG
  · have hng := requestCapture_nogate so sh c st (by simpa using hgate)
    by_cases hcc : (canCapture so c.now st.sched).1 = true
    · obtain ⟨hccs, hcclt⟩ := canCapture_eq_true so c.now st.sched hcc
      cases hcap : (Screenshotter.capture sh c.reason c.now c.asleep c.outcome st.shot).1 with
      | none =>
          rw [hng, requestCaptureBody_thrown so sh c st hcc hcap]
          refine ⟨?_, ?_, ?_⟩
          · simpa using hA'
          · simpa [hccs] using hBtrim
          · simpa using hG
      | some b =>
          rw [hng, requestCaptureBody_returned so sh c st b hcc hcap]
          have hself : recentB c.now c.now = true := by
            simp [recentB]
          refine ⟨?_, ?_, ?_⟩
          · intro x hx
            simp at hx
            rcases hx with hx | rfl
            · exact hA' x hx
            · exact le_refl _
          · have hgoal : ((recs ++ [c.now]).filter (recentB c.now)).Sublist
                (trimHourly c.now st.sched.hourlyTimestamps ++ [c.now]) := by
              rw [List.filter_append]
              refine List.Sublist.append hBtrim ?_
              simp [hself]
            simpa [hccs, hself] using hgoal
          · have hpush := countP_window_push recs c.now so.maxScreenshotsPerHour hA'
              (lt_of_le_of_lt hBtrim.length_le hcclt) hG
            simpa using hpush
    · have hccf : (canCapture so c.now st.sched).1 = false := by simpa using hcc
      rw [hng, requestCaptureBody_reject so sh c st hccf]
      refine ⟨?_, ?_, ?_⟩
      · simpa using hA'
      · rcases canCapture_snd so c.now st.sched with hs | hs
        · simpa [hs] using hBv
        · simpa [hs] using hBtrim
      · simpa using hG

/-- The invariant carries over a whole monotone call sequence. -/
theorem runCalls_window_bound (so : SchedulerOpts) (sh : ShotOpts)
    (calls : List CaptureCall) (st : TrackState) (recs : List Nat) (tlow : Nat)
    (hinv : capInv so.maxScreenshotsPerHour st recs tlow)
    (hmono : timesMono tlow calls = true) :
    ∀ t, (recs ++ (runCalls so sh calls st).2).countP (inWindow t) ≤
      so.maxScreenshotsPerHour := by
  induction calls generalizing st recs tlow with
  | nil =>
      intro t
      simpa [runCalls] using hinv.2.2 t
  | cons c rest ih =>
      simp only [timesMono, Bool.and_eq_true, decide_eq_true_eq] at hmono
      obtain ⟨hle, hmono'⟩ := hmono
      have hstep := requestCapture_capInv so sh c st recs tlow hinv hle
      intro t
      have hrec := ih (requestCapture so sh c st).1
        (recs ++ if (requestCapture so sh c st).2.recorded = true then [c.now] else [])
        c.now hstep hmono' t
      simp only [runCalls]
      simpa [List.append_assoc] using hrec

end ScreenshotScheduler

/-- C1: over any sequence of `requestCapture` calls with nondecreasing
clock readings, started from a fresh scheduler, the quota-recorded capture
instants falling in any rolling `3600000` ms window never number more than
`maxScreenshotsPerHour`. -/
theorem hourly_cap_rolling_window (so : SchedulerOpts) (sh : ShotOpts)
    (calls : List CaptureCall)
    (hmono : ScreenshotScheduler.timesMono 0 calls = true) (t : Nat) :
    (ScreenshotScheduler.runCalls so sh calls
        ScreenshotScheduler.initTrackState).2.countP
      (ScreenshotScheduler.inWindow t) ≤ so.maxScreenshotsPerHour := by
  have h := ScreenshotScheduler.runCalls_window_bound so sh calls
    ScreenshotScheduler.initTrackState [] 0
    ⟨by simp, by simp [ScreenshotScheduler.initTrackState], fun u => by simp⟩
    hmono t
  simpa using h

/-- Witness for C1: with an hourly cap of `1` and no spacing limit, two
`manual` calls at `10` and `20` record only one capture in the window
ending at `20`. -/
theorem hourly_cap_rolling_window_witness :
    (ScreenshotScheduler.runCalls ⟨0, 600000, 10000, 1⟩ exShot
        [⟨10, "manual", false, CaptureOutcome.success⟩,
         ⟨20, "manual", false, CaptureOutcome.success⟩]
        ScreenshotScheduler.initTrackState).2.countP
      (ScreenshotScheduler.inWindow 20) ≤ 1 :=
  hourly_cap_rolling_window ⟨0, 600000, 10000, 1⟩ exShot
    [⟨10, "manual", false, CaptureOutcome.success⟩,
     ⟨20, "manual", false, CaptureOutcome.success⟩] (by decide) 20

end Tracker
